import Mathlib

/-!
Verification of the field-value update dispatcher and bulk-update driver of
the GitHub Projects automation script (`github_projects_automation.py`).

The dispatcher (`GitHubProjectsAPI.update_field_value`, lines 473-593) is a
pure function from (field catalog, field name, raw value) to either a mutation
payload or an error; the network execution of the produced mutation is an
external effect and is modelled as a boolean oracle ("the remote call
succeeded") where a caller needs it.  Strings are Lean `String`s; Python's
`str.strip`, `float`, and the `re` digit class are modelled over ASCII
(Python additionally accepts some non-ASCII Unicode digits and whitespace;
that extension is orthogonal to every property below, which only exercises
ASCII data).  Python floats are modelled as exact rationals plus infinities
and NaN: IEEE-754 rounding of the parsed decimal value is abstracted away.
-/

namespace GhProjects

/-- ASCII whitespace as stripped by Python's `str.strip()` and accepted
around `float()` input. -/
def isPyWs (c : Char) : Bool :=
  c == ' ' || c == '\t' || c == '\n' || c == '\r' || c == '\x0b' || c == '\x0c'

/-- Strip `isPyWs` characters from both ends of a character list. -/
def stripPyWs (cs : List Char) : List Char :=
  ((cs.dropWhile isPyWs).reverse.dropWhile isPyWs).reverse

/-- Embedding of Python `str.strip()` (ASCII whitespace). -/
def pyStrip (s : String) : String :=
  ⟨stripPyWs s.data⟩

/-- Result of Python `float(s)`: a finite value (exact rational), a signed
infinity, or NaN. -/
inductive PyFloat where
  | finite (q : ℚ)
  | infinite (neg : Bool)
  | nan
deriving DecidableEq

/-- Numeric value of a list of ASCII digits read in base 10. -/
def digitsVal (ds : List Char) : ℕ :=
  ds.foldl (fun a c => 10 * a + (c.toNat - 48)) 0

/-- Consume an optional leading sign; return (isNegative, rest). -/
def parseSignChars : List Char → Bool × List Char
  | '+' :: r => (false, r)
  | '-' :: r => (true, r)
  | cs => (false, cs)

/-- CPython requires every underscore in a numeric string to be both preceded
and followed by a digit.  First argument is the previous character, if any. -/
def underscoresOkAux : Option Char → List Char → Bool
  | _, [] => true
  | prev, c :: rest =>
    if c == '_' then
      (match prev with
       | some p => p.isDigit
       | none => false) &&
      (match rest with
       | d :: _ => d.isDigit
       | [] => false) &&
      underscoresOkAux (some c) rest
    else
      underscoresOkAux (some c) rest

def underscoresOk (cs : List Char) : Bool :=
  underscoresOkAux none cs

/-- Lexical content of an unsigned decimal literal: integer part value,
fractional part value and digit count, exponent sign and value. -/
structure DecimalParts where
  intVal : ℕ
  fracVal : ℕ
  fracLen : ℕ
  expNeg : Bool
  expVal : ℕ
deriving DecidableEq

/-- Parse an unsigned decimal literal `digits [. digits] [(e|E) [sign] digits]`
(underscores already removed), requiring at least one mantissa digit and no
trailing characters. -/
def parseDecimalParts (cs : List Char) : Option DecimalParts :=
  let p := cs.span Char.isDigit
  let intD := p.1
  let q := match p.2 with
    | '.' :: r => r.span Char.isDigit
    | r => ([], r)
  let fracD := q.1
  if intD.isEmpty && fracD.isEmpty then none
  else
    match q.2 with
    | [] => some ⟨digitsVal intD, digitsVal fracD, fracD.length, false, 0⟩
    | e :: r3 =>
      if e == 'e' || e == 'E' then
        let sg := parseSignChars r3
        let ex := sg.2.span Char.isDigit
        if ex.1.isEmpty || !ex.2.isEmpty then none
        else some ⟨digitsVal intD, digitsVal fracD, fracD.length, sg.1, digitsVal ex.1⟩
      else none

/-- Exact rational value of a parsed decimal literal. -/
def decimalValue (d : DecimalParts) : ℚ :=
  let mant : ℚ := (d.intVal : ℚ) + (d.fracVal : ℚ) / (10 : ℚ) ^ d.fracLen
  if d.expNeg then mant / (10 : ℚ) ^ d.expVal else mant * (10 : ℚ) ^ d.expVal

/-- Lexical result of Python `float(s)`, before numeric interpretation. -/
inductive PyFloatRepr where
  | finite (neg : Bool) (d : DecimalParts)
  | infinite (neg : Bool)
  | nan
deriving DecidableEq

/-- Lexical phase of Python's `float(s)`: strip whitespace, validate
underscores, accept an optional sign followed by `inf`/`infinity`/`nan`
(case-insensitive) or a decimal literal.  `none` models `ValueError`. -/
def parsePyFloatRepr (s : String) : Option PyFloatRepr :=
  let cs := stripPyWs s.data
  if !underscoresOk cs then none
  else
    let cs2 := (cs.filter (fun c => c != '_'))
    let sg := parseSignChars cs2
    let low := sg.2.map Char.toLower
    if low == "inf".data || low == "infinity".data then some (.infinite sg.1)
    else if low == "nan".data then some .nan
    else
      match parseDecimalParts sg.2 with
      | none => none
      | some d => some (.finite sg.1 d)

/-- Numeric interpretation of a lexical float. -/
def PyFloatRepr.value : PyFloatRepr → PyFloat
  | .finite neg d => .finite (if neg then -(decimalValue d) else decimalValue d)
  | .infinite neg => .infinite neg
  | .nan => .nan

/-- Embedding of Python's `float(s)`: `none` models `ValueError`. -/
def parsePyFloat (s : String) : Option PyFloat :=
  (parsePyFloatRepr s).map PyFloatRepr.value

/-- Exactly four ASCII digits, hyphen, two digits, hyphen, two digits. -/
def dateShape10 : List Char → Bool
  | [y1, y2, y3, y4, h1, m1, m2, h2, d1, d2] =>
    y1.isDigit && y2.isDigit && y3.isDigit && y4.isDigit && h1 == '-' &&
    m1.isDigit && m2.isDigit && h2 == '-' && d1.isDigit && d2.isDigit
  | _ => false

/-- Embedding of the truthiness of `re.match(r'^\d{4}-\d{2}-\d{2}$', v)`.
Python's `$` matches at the end of the string or just before a single newline
at the end of the string, so the pattern also accepts the 10-character shape
followed by one trailing newline. -/
def re_match_date (v : String) : Bool :=
  dateShape10 v.data || (v.data.getLast? == some '\n' && dateShape10 v.data.dropLast)

/-- Modelled from the spec: the literal date shape `YYYY-MM-DD` — four
digits, hyphen, two digits, hyphen, two digits — with no calendar validity
check.  Used to compare the spec's acceptance set with the source regex. -/
def specDateShape (v : String) : Bool :=
  dateShape10 v.data

/-- One entry of a SINGLE_SELECT field's `options` list. -/
structure SelectOption where
  id : String
  name : String
deriving DecidableEq

/-- One entry of an ITERATION field's `iterations` list. -/
structure IterationInfo where
  id : String
  title : String
deriving DecidableEq

/-- The `configuration` object returned for an iteration field: the active
and completed iteration lists. -/
structure IterationConfig where
  iterations : List IterationInfo
  completedIterations : List IterationInfo
deriving DecidableEq

/-- Raw per-field data from the GraphQL fields query, before the script
reshapes it into a `ProjectField`. -/
structure FieldData where
  id : String
  name : String
  dataType : String
  options : List SelectOption
  configuration : Option IterationConfig
deriving DecidableEq

/-- The script's `ProjectField` record. -/
structure ProjectField where
  id : String
  name : String
  data_type : String
  options : List SelectOption
  iterations : List IterationInfo
deriving DecidableEq

/-- Per-field reshaping in `get_project_fields` (lines 214-226): the
`iterations` list is the concatenation of the configuration's active
`iterations` and `completedIterations`, in that order; `[]` when there is no
configuration. -/
def mkProjectField (fd : FieldData) : ProjectField :=
  { id := fd.id
    name := fd.name
    data_type := fd.dataType
    options := fd.options
    iterations :=
      match fd.configuration with
      | some c => c.iterations ++ c.completedIterations
      | none => [] }

/-- Catalog construction of `get_project_fields` from the raw field list. -/
def get_project_fields (l : List FieldData) : List ProjectField :=
  l.map mkProjectField

/-- The errors `update_field_value` raises before executing the mutation.
Each constructor carries the data interpolated into the corresponding
exception message in the source. -/
inductive UpdateError where
  | fieldNotFound (field_name : String)
  | invalidNumber (value : String)
  | invalidDate (value : String)
  | optionNotFound (value field_name : String)
  | iterationNotFound (value field_name : String)
  | unsupportedFieldType (data_type : String)
deriving DecidableEq

/-- The typed value bound into the mutation variables, one variant per
field type. -/
inductive TypedValue where
  | text (s : String)
  | number (n : PyFloat)
  | date (s : String)
  | singleSelectOptionId (s : String)
  | iterationId (s : String)
deriving DecidableEq

/-- The mutation payload handed to the query executor: the target field id
and the typed value binding. -/
structure MutationPayload where
  fieldId : String
  value : TypedValue
deriving DecidableEq

/-- Embedding of the pure dispatch portion of
`GitHubProjectsAPI.update_field_value` (lines 478-584): find the field by
exact name, then branch on its `data_type` to validate the raw value and
build the mutation payload.  The surrounding catalog fetch and the network
execution of the mutation are external effects, modelled elsewhere. -/
def update_field_value (fields : List ProjectField) (field_name value : String) :
    Except UpdateError MutationPayload :=
  match fields.find? (fun f => f.name == field_name) with
  | none => .error (.fieldNotFound field_name)
  | some field =>
    if field.data_type = "TEXT" then
      .ok ⟨field.id, .text value⟩
    else if field.data_type = "NUMBER" then
      match parsePyFloat value with
      | none => .error (.invalidNumber value)
      | some numeric_value => .ok ⟨field.id, .number numeric_value⟩
    else if field.data_type = "DATE" then
      if re_match_date value then .ok ⟨field.id, .date value⟩
      else .error (.invalidDate value)
    else if field.data_type = "SINGLE_SELECT" then
      match field.options.find? (fun opt => opt.name == value) with
      | none => .error (.optionNotFound value field_name)
      | some opt => .ok ⟨field.id, .singleSelectOptionId opt.id⟩
    else if field.data_type = "ITERATION" then
      match field.iterations.find? (fun it => it.title == value) with
      | none => .error (.iterationNotFound value field_name)
      | some it => .ok ⟨field.id, .iterationId it.id⟩
    else
      .error (.unsupportedFieldType field.data_type)

/-- One CSV row of the bulk input after `row.get(col, '')` defaulting: the
three required cells as raw (unstripped) strings. -/
structure CsvRow where
  item_id : String
  field_name : String
  value : String
deriving DecidableEq

/-- Outcome of one bulk row.  `updated` carries the mutation payload that
was sent over the network; `dispatchFailed` the pre-network error;
`transportFailed` models an exception from the query executor. -/
inductive RowResult where
  | missingFields
  | dryRunWouldUpdate
  | updated (p : MutationPayload)
  | dispatchFailed (e : UpdateError)
  | transportFailed
deriving DecidableEq

/-- Which row outcomes increment the `updated` counter in `bulk_update`. -/
def countsAsUpdated : RowResult → Bool
  | .dryRunWouldUpdate => true
  | .updated _ => true
  | _ => false

/-- Embedding of one iteration of the `bulk_update` loop body (lines
756-780): strip the three cells, skip the row if any is empty, honour
`dry_run` before any dispatch, otherwise dispatch and send; `netOk` is the
network oracle for this row's mutation call. -/
def processRow (fields : List ProjectField) (dry_run netOk : Bool)
    (row : CsvRow) : RowResult :=
  let item_id := pyStrip row.item_id
  let field_name := pyStrip row.field_name
  let value := pyStrip row.value
  if item_id = "" ∨ field_name = "" ∨ value = "" then .missingFields
  else if dry_run then .dryRunWouldUpdate
  else
    match update_field_value fields field_name value with
    | .error e => .dispatchFailed e
    | .ok p => if netOk then .updated p else .transportFailed

/-- The counting loop of `bulk_update`: fold over the remaining rows (each
paired with its network oracle), accumulating (updated, failed). -/
def bulk_update_loop (fields : List ProjectField) (dry_run : Bool)
    (acc : ℕ × ℕ) : List (CsvRow × Bool) → ℕ × ℕ
  | [] => acc
  | (row, netOk) :: rest =>
    let r := processRow fields dry_run netOk row
    bulk_update_loop fields dry_run
      (if countsAsUpdated r then (acc.1 + 1, acc.2) else (acc.1, acc.2 + 1)) rest

/-- Embedding of `GitHubProjectsAutomation.bulk_update` (lines 742-782)
restricted to its observable tallies: the final (updated, failed) counts. -/
def bulk_update (fields : List ProjectField) (dry_run : Bool)
    (rows : List (CsvRow × Bool)) : ℕ × ℕ :=
  bulk_update_loop fields dry_run (0, 0) rows

/-- Outcome of the single-item `set_field` command path. -/
inductive SetFieldOutcome where
  | dryRunReport (item_id field_name value : String)
  | updated (p : MutationPayload)
  | failed
deriving DecidableEq

/-- Embedding of `GitHubProjectsAutomation.set_field` (lines 727-740): the
dry-run check precedes any dispatch or network call. -/
def set_field (fields : List ProjectField) (netOk : Bool)
    (item_id field_name value : String) (dry_run : Bool) : SetFieldOutcome :=
  if dry_run then .dryRunReport item_id field_name value
  else
    match update_field_value fields field_name value with
    | .error _ => .failed
    | .ok p => if netOk then .updated p else .failed

deriving instance DecidableEq for Except

/-! ## Helper lemmas -/

/-- `find?` returns the head of the first matching suffix: if everything in
`pre` fails the predicate and `o` satisfies it, the scan stops at `o`. -/
theorem find?_first_of_prefix_none {α : Type} (p : α → Bool) (pre : List α) (o : α)
    (post : List α) (hpre : ∀ x ∈ pre, p x = false) (ho : p o = true) :
    (pre ++ o :: post).find? p = some o := by
  rw [List.find?_append]
  have h1 : pre.find? p = none := List.find?_eq_none.2 (by
    intro x hx
    simp [hpre x hx])
  rw [h1, List.find?_cons_of_pos _ ho]
  rfl

/-- Unfolding of the dispatcher in the NUMBER branch. -/
theorem update_number_branch (fields : List ProjectField) (field_name value : String)
    (field : ProjectField)
    (hf : fields.find? (fun f => f.name == field_name) = some field)
    (ht : field.data_type = "NUMBER") :
    update_field_value fields field_name value =
      (match parsePyFloat value with
       | none => .error (.invalidNumber value)
       | some numeric_value => .ok ⟨field.id, .number numeric_value⟩) := by
  simp only [update_field_value, hf, ht]
  simp

/-- Unfolding of the dispatcher in the DATE branch. -/
theorem update_date_branch (fields : List ProjectField) (field_name value : String)
    (field : ProjectField)
    (hf : fields.find? (fun f => f.name == field_name) = some field)
    (ht : field.data_type = "DATE") :
    update_field_value fields field_name value =
      (if re_match_date value then .ok ⟨field.id, .date value⟩
       else .error (.invalidDate value)) := by
  simp only [update_field_value, hf, ht]
  simp

/-- Unfolding of the dispatcher in the SINGLE_SELECT branch. -/
theorem update_select_branch (fields : List ProjectField) (field_name value : String)
    (field : ProjectField)
    (hf : fields.find? (fun f => f.name == field_name) = some field)
    (ht : field.data_type = "SINGLE_SELECT") :
    update_field_value fields field_name value =
      (match field.options.find? (fun opt => opt.name == value) with
       | none => .error (.optionNotFound value field_name)
       | some opt => .ok ⟨field.id, .singleSelectOptionId opt.id⟩) := by
  simp only [update_field_value, hf, ht]
  simp

/-- Unfolding of the dispatcher in the ITERATION branch. -/
theorem update_iteration_branch (fields : List ProjectField) (field_name value : String)
    (field : ProjectField)
    (hf : fields.find? (fun f => f.name == field_name) = some field)
    (ht : field.data_type = "ITERATION") :
    update_field_value fields field_name value =
      (match field.iterations.find? (fun it => it.title == value) with
       | none => .error (.iterationNotFound value field_name)
       | some it => .ok ⟨field.id, .iterationId it.id⟩) := by
  simp only [update_field_value, hf, ht]
  simp

/-! ## Claim theorems -/

/-- C1: for every field catalog and every field_name such that no field in
the catalog has a name exactly (case-sensitively) equal to field_name, the
dispatcher fails with FieldNotFound before any type dispatch or value
validation occurs (the result is the lookup error for every raw value, so no
partial or case-insensitive match is ever used). -/
theorem fieldNotFound_exact_only (fields : List ProjectField) (field_name value : String)
    (h : ∀ f ∈ fields, f.name ≠ field_name) :
    update_field_value fields field_name value = .error (.fieldNotFound field_name) := by
  have hf : fields.find? (fun f => f.name == field_name) = none :=
    List.find?_eq_none.2 (by
      intro f hmem
      simp [h f hmem])
  simp only [update_field_value, hf]

/-- C1 witness: a catalog holding a case variant and a superstring of the
requested name still yields FieldNotFound. -/
theorem fieldNotFound_exact_only_witness :
    update_field_value
      [⟨"f1", "Status", "TEXT", [], []⟩, ⟨"f2", "status2", "TEXT", [], []⟩]
      "status" "x" = .error (.fieldNotFound "status") :=
  fieldNotFound_exact_only
    [⟨"f1", "Status", "TEXT", [], []⟩, ⟨"f2", "status2", "TEXT", [], []⟩]
    "status" "x" (by decide)

/-- C9: for every field with data_type TEXT and every string raw_value, the
dispatcher succeeds and the payload carries text identically equal to
raw_value. -/
theorem text_identity (fields : List ProjectField) (field_name value : String)
    (field : ProjectField)
    (hf : fields.find? (fun f => f.name == field_name) = some field)
    (ht : field.data_type = "TEXT") :
    update_field_value fields field_name value = .ok ⟨field.id, .text value⟩ := by
  simp only [update_field_value, hf, ht]
  simp

/-- C9 witness: identity round-trip on an ordinary string and on the empty
string. -/
theorem text_identity_witness :
    update_field_value [⟨"f1", "Notes", "TEXT", [], []⟩] "Notes" "hello world"
        = .ok ⟨"f1", .text "hello world"⟩
    ∧ update_field_value [⟨"f1", "Notes", "TEXT", [], []⟩] "Notes" ""
        = .ok ⟨"f1", .text ""⟩ :=
  ⟨text_identity [⟨"f1", "Notes", "TEXT", [], []⟩] "Notes" "hello world"
      ⟨"f1", "Notes", "TEXT", [], []⟩ (by decide) rfl,
   text_identity [⟨"f1", "Notes", "TEXT", [], []⟩] "Notes" ""
      ⟨"f1", "Notes", "TEXT", [], []⟩ (by decide) rfl⟩

/-- C3: for every field with data_type NUMBER, the dispatcher succeeds
exactly when raw_value parses under Python float semantics, carrying the
parsed value; on parse failure it fails with the validation error citing the
raw string. -/
theorem number_parse_dispatch (fields : List ProjectField) (field_name value : String)
    (field : ProjectField)
    (hf : fields.find? (fun f => f.name == field_name) = some field)
    (ht : field.data_type = "NUMBER") :
    (∀ q, parsePyFloat value = some q →
        update_field_value fields field_name value = .ok ⟨field.id, .number q⟩)
    ∧ (parsePyFloat value = none →
        update_field_value fields field_name value = .error (.invalidNumber value)) := by
  have hb := update_number_branch fields field_name value field hf ht
  constructor
  · intro q hq
    rw [hb, hq]
  · intro hq
    rw [hb, hq]

/-- C3 witness: "3.14" parses to the exact rational 157/50 and is carried as
the number payload; "abc" fails with the validation error citing "abc". -/
theorem number_parse_dispatch_witness :
    update_field_value [⟨"f1", "Estimate", "NUMBER", [], []⟩] "Estimate" "3.14"
        = .ok ⟨"f1", .number (.finite (157 / 50))⟩
    ∧ update_field_value [⟨"f1", "Estimate", "NUMBER", [], []⟩] "Estimate" "abc"
        = .error (.invalidNumber "abc") := by
  constructor
  · refine (number_parse_dispatch [⟨"f1", "Estimate", "NUMBER", [], []⟩] "Estimate" "3.14"
      ⟨"f1", "Estimate", "NUMBER", [], []⟩ (by decide) rfl).1 (.finite (157 / 50)) ?_
    have h : parsePyFloatRepr "3.14" = some (.finite false ⟨3, 14, 2, false, 0⟩) := by decide
    simp [parsePyFloat, h, PyFloatRepr.value, decimalValue]
    norm_num
  · exact (number_parse_dispatch [⟨"f1", "Estimate", "NUMBER", [], []⟩] "Estimate" "abc"
      ⟨"f1", "Estimate", "NUMBER", [], []⟩ (by decide) rfl).2 (by decide)

/-- C4 counterexample: the claim's acceptance set (exactly the literal
10-character YYYY-MM-DD shape) disagrees with the code: the string
"2024-01-15\n" does not have that shape, yet the dispatcher accepts it,
because Python's `$` anchor also matches just before a trailing newline. -/
theorem date_shape_claim_counterexample :
    specDateShape "2024-01-15\n" = false
    ∧ update_field_value [⟨"f1", "Due", "DATE", [], []⟩] "Due" "2024-01-15\n"
        = .ok ⟨"f1", .date "2024-01-15\n"⟩ :=
  ⟨by decide, by decide⟩

/-- C4 (amended): for every field with data_type DATE, the dispatcher
succeeds if and only if raw_value matches the literal shape YYYY-MM-DD,
optionally followed by a single trailing newline; no calendar validity check
is performed, and on success the produced date equals raw_value unchanged. -/
theorem date_shape_dispatch (fields : List ProjectField) (field_name value : String)
    (field : ProjectField)
    (hf : fields.find? (fun f => f.name == field_name) = some field)
    (ht : field.data_type = "DATE") :
    ((specDateShape value
        || (value.data.getLast? == some '\n' && specDateShape ⟨value.data.dropLast⟩)) = true →
      update_field_value fields field_name value = .ok ⟨field.id, .date value⟩)
    ∧ ((specDateShape value
        || (value.data.getLast? == some '\n' && specDateShape ⟨value.data.dropLast⟩)) = false →
      update_field_value fields field_name value = .error (.invalidDate value)) := by
  have hb := update_date_branch fields field_name value field hf ht
  have hbridge : re_match_date value =
      (specDateShape value
        || (value.data.getLast? == some '\n' && specDateShape ⟨value.data.dropLast⟩)) := rfl
  constructor
  · intro h
    rw [hb, hbridge, h]
    rfl
  · intro h
    rw [hb, hbridge, h]
    rfl

/-- C4 witness: calendar-impossible dates "2024-02-30" and "2024-13-01"
succeed unchanged, a well-formed date succeeds, and "01-15-2024" fails. -/
theorem date_shape_dispatch_witness :
    update_field_value [⟨"f1", "Due", "DATE", [], []⟩] "Due" "2024-02-30"
        = .ok ⟨"f1", .date "2024-02-30"⟩
    ∧ update_field_value [⟨"f1", "Due", "DATE", [], []⟩] "Due" "2024-13-01"
        = .ok ⟨"f1", .date "2024-13-01"⟩
    ∧ update_field_value [⟨"f1", "Due", "DATE", [], []⟩] "Due" "2024-01-15"
        = .ok ⟨"f1", .date "2024-01-15"⟩
    ∧ update_field_value [⟨"f1", "Due", "DATE", [], []⟩] "Due" "01-15-2024"
        = .error (.invalidDate "01-15-2024") :=
  ⟨(date_shape_dispatch [⟨"f1", "Due", "DATE", [], []⟩] "Due" "2024-02-30"
      ⟨"f1", "Due", "DATE", [], []⟩ (by decide) rfl).1 (by decide),
   (date_shape_dispatch [⟨"f1", "Due", "DATE", [], []⟩] "Due" "2024-13-01"
      ⟨"f1", "Due", "DATE", [], []⟩ (by decide) rfl).1 (by decide),
   (date_shape_dispatch [⟨"f1", "Due", "DATE", [], []⟩] "Due" "2024-01-15"
      ⟨"f1", "Due", "DATE", [], []⟩ (by decide) rfl).1 (by decide),
   (date_shape_dispatch [⟨"f1", "Due", "DATE", [], []⟩] "Due" "01-15-2024"
      ⟨"f1", "Due", "DATE", [], []⟩ (by decide) rfl).2 (by decide)⟩

/-- C6: for every field whose data_type is outside the five known enum
values, the dispatcher fails with UnsupportedFieldType for every raw_value,
performing no value validation and producing no payload. -/
theorem unsupported_type_dispatch (fields : List ProjectField) (field_name value : String)
    (field : ProjectField)
    (hf : fields.find? (fun f => f.name == field_name) = some field)
    (ht : field.data_type ∉ (["TEXT", "NUMBER", "DATE", "SINGLE_SELECT", "ITERATION"] :
      List String)) :
    update_field_value fields field_name value
      = .error (.unsupportedFieldType field.data_type) := by
  simp only [List.mem_cons, List.not_mem_nil, or_false, not_or] at ht
  obtain ⟨h1, h2, h3, h4, h5⟩ := ht
  simp only [update_field_value, hf]
  rw [if_neg h1, if_neg h2, if_neg h3, if_neg h4, if_neg h5]

/-- C6 witness: a field with the unrecognized data_type "TEXTAREA" is
rejected with UnsupportedFieldType for an arbitrary value. -/
theorem unsupported_type_dispatch_witness :
    update_field_value [⟨"f1", "Body", "TEXTAREA", [], []⟩] "Body" "anything"
      = .error (.unsupportedFieldType "TEXTAREA") :=
  unsupported_type_dispatch [⟨"f1", "Body", "TEXTAREA", [], []⟩] "Body" "anything"
    ⟨"f1", "Body", "TEXTAREA", [], []⟩ (by decide) (by decide)

/-- C2: for every field with data_type SINGLE_SELECT, the dispatcher
succeeds exactly when raw_value equals (case-sensitively) the name of some
entry in the field's options list; it then carries the id of the first such
entry in list order, and with no match it fails with the validation error
naming the field and the attempted value. -/
theorem singleSelect_first_match (fields : List ProjectField) (field_name value : String)
    (field : ProjectField)
    (hf : fields.find? (fun f => f.name == field_name) = some field)
    (ht : field.data_type = "SINGLE_SELECT") :
    ((∃ opt ∈ field.options, opt.name = value) ↔
        ∃ p, update_field_value fields field_name value = .ok p)
    ∧ (∀ pre opt post, field.options = pre ++ opt :: post → opt.name = value →
        (∀ o2 ∈ pre, o2.name ≠ value) →
        update_field_value fields field_name value
          = .ok ⟨field.id, .singleSelectOptionId opt.id⟩)
    ∧ ((∀ opt ∈ field.options, opt.name ≠ value) →
        update_field_value fields field_name value
          = .error (.optionNotFound value field_name)) := by
  have hb := update_select_branch fields field_name value field hf ht
  refine ⟨⟨?_, ?_⟩, ?_, ?_⟩
  · rintro ⟨o, ho, hname⟩
    have hsome : (field.options.find? (fun opt => opt.name == value)).isSome :=
      List.find?_isSome.2 ⟨o, ho, by simp [hname]⟩
    cases hfind : field.options.find? (fun opt => opt.name == value) with
    | none =>
      rw [hfind] at hsome
      simp at hsome
    | some o2 =>
      exact ⟨⟨field.id, .singleSelectOptionId o2.id⟩, by rw [hb, hfind]⟩
  · rintro ⟨p, hp⟩
    rw [hb] at hp
    cases hfind : field.options.find? (fun opt => opt.name == value) with
    | none =>
      rw [hfind] at hp
      simp at hp
    | some o2 =>
      have hmem := List.mem_of_find?_eq_some hfind
      have hpred := List.find?_some hfind
      exact ⟨o2, hmem, by simpa using hpred⟩
  · intro pre opt post hopts hname hpre
    have hfind : field.options.find? (fun o => o.name == value) = some opt := by
      rw [hopts]
      exact find?_first_of_prefix_none _ pre opt post
        (fun x hx => by simp [hpre x hx]) (by simp [hname])
    rw [hb, hfind]
  · intro hnone
    have hfind : field.options.find? (fun o => o.name == value) = none :=
      List.find?_eq_none.2 (fun o ho => by simp [hnone o ho])
    rw [hb, hfind]

/-- C2 witness: with options [Todo → o1, Done → o2], the value "Done" takes
o2; with a duplicate option name, the first entry in list order wins; the
value "Doing" fails naming the field and the attempted value. -/
theorem singleSelect_first_match_witness :
    update_field_value
        [⟨"f1", "Status", "SINGLE_SELECT", [⟨"o1", "Todo"⟩, ⟨"o2", "Done"⟩], []⟩]
        "Status" "Done" = .ok ⟨"f1", .singleSelectOptionId "o2"⟩
    ∧ update_field_value
        [⟨"f1", "Status", "SINGLE_SELECT", [⟨"o1", "Dup"⟩, ⟨"o2", "Dup"⟩], []⟩]
        "Status" "Dup" = .ok ⟨"f1", .singleSelectOptionId "o1"⟩
    ∧ update_field_value
        [⟨"f1", "Status", "SINGLE_SELECT", [⟨"o1", "Todo"⟩, ⟨"o2", "Done"⟩], []⟩]
        "Status" "Doing" = .error (.optionNotFound "Doing" "Status") :=
  ⟨(singleSelect_first_match
      [⟨"f1", "Status", "SINGLE_SELECT", [⟨"o1", "Todo"⟩, ⟨"o2", "Done"⟩], []⟩]
      "Status" "Done" ⟨"f1", "Status", "SINGLE_SELECT", [⟨"o1", "Todo"⟩, ⟨"o2", "Done"⟩], []⟩
      (by decide) rfl).2.1 [⟨"o1", "Todo"⟩] ⟨"o2", "Done"⟩ [] rfl rfl (by decide),
   (singleSelect_first_match
      [⟨"f1", "Status", "SINGLE_SELECT", [⟨"o1", "Dup"⟩, ⟨"o2", "Dup"⟩], []⟩]
      "Status" "Dup" ⟨"f1", "Status", "SINGLE_SELECT", [⟨"o1", "Dup"⟩, ⟨"o2", "Dup"⟩], []⟩
      (by decide) rfl).2.1 [] ⟨"o1", "Dup"⟩ [⟨"o2", "Dup"⟩] rfl rfl (by decide),
   (singleSelect_first_match
      [⟨"f1", "Status", "SINGLE_SELECT", [⟨"o1", "Todo"⟩, ⟨"o2", "Done"⟩], []⟩]
      "Status" "Doing" ⟨"f1", "Status", "SINGLE_SELECT", [⟨"o1", "Todo"⟩, ⟨"o2", "Done"⟩], []⟩
      (by decide) rfl).2.2 (by decide)⟩

/-- C5: for every ITERATION field built by the catalog constructor, the
field's iterations sequence is the active list followed by the completed
list; the dispatcher succeeds exactly when raw_value is the title of some
entry of that concatenation, carrying the id of the first matching entry (so
an active iteration wins over a completed one with the same title); with no
match it fails with the validation error. -/
theorem iteration_concat_dispatch (raws : List FieldData) (field_name value : String)
    (fd : FieldData) (act comp : List IterationInfo)
    (hf : (get_project_fields raws).find? (fun f => f.name == field_name)
        = some (mkProjectField fd))
    (hconf : fd.configuration = some ⟨act, comp⟩)
    (ht : fd.dataType = "ITERATION") :
    (mkProjectField fd).iterations = act ++ comp
    ∧ ((∃ it ∈ act ++ comp, it.title = value) ↔
        ∃ p, update_field_value (get_project_fields raws) field_name value = .ok p)
    ∧ (∀ pre it post, act ++ comp = pre ++ it :: post → it.title = value →
        (∀ it2 ∈ pre, it2.title ≠ value) →
        update_field_value (get_project_fields raws) field_name value
          = .ok ⟨fd.id, .iterationId it.id⟩)
    ∧ (∀ a, act.find? (fun it => it.title == value) = some a →
        update_field_value (get_project_fields raws) field_name value
          = .ok ⟨fd.id, .iterationId a.id⟩)
    ∧ ((∀ it ∈ act ++ comp, it.title ≠ value) →
        update_field_value (get_project_fields raws) field_name value
          = .error (.iterationNotFound value field_name)) := by
  have hit : (mkProjectField fd).iterations = act ++ comp := by
    simp [mkProjectField, hconf]
  have ht2 : (mkProjectField fd).data_type = "ITERATION" := by
    simp [mkProjectField, ht]
  have hb := update_iteration_branch (get_project_fields raws) field_name value
    (mkProjectField fd) hf ht2
  rw [hit] at hb
  refine ⟨hit, ⟨?_, ?_⟩, ?_, ?_, ?_⟩
  · rintro ⟨it, hmem, htitle⟩
    have hsome : ((act ++ comp).find? (fun it => it.title == value)).isSome :=
      List.find?_isSome.2 ⟨it, hmem, by simp [htitle]⟩
    cases hfind : (act ++ comp).find? (fun it => it.title == value) with
    | none =>
      rw [hfind] at hsome
      simp at hsome
    | some it2 =>
      exact ⟨⟨(mkProjectField fd).id, .iterationId it2.id⟩, by rw [hb, hfind]⟩
  · rintro ⟨p, hp⟩
    rw [hb] at hp
    cases hfind : (act ++ comp).find? (fun it => it.title == value) with
    | none =>
      rw [hfind] at hp
      simp at hp
    | some it2 =>
      have hmem := List.mem_of_find?_eq_some hfind
      have hpred := List.find?_some hfind
      exact ⟨it2, hmem, by simpa using hpred⟩
  · intro pre it post hsplit htitle hpre
    have hfind : (act ++ comp).find? (fun i => i.title == value) = some it := by
      rw [hsplit]
      exact find?_first_of_prefix_none _ pre it post
        (fun x hx => by simp [hpre x hx]) (by simp [htitle])
    rw [hb, hfind]
    rfl
  · intro a ha
    have hfind : (act ++ comp).find? (fun it => it.title == value) = some a := by
      rw [List.find?_append, ha]
      rfl
    rw [hb, hfind]
    rfl
  · intro hnone
    have hfind : (act ++ comp).find? (fun it => it.title == value) = none :=
      List.find?_eq_none.2 (fun it hmem => by simp [hnone it hmem])
    rw [hb, hfind]

/-- C5 witness: the catalog constructor concatenates active before completed
iterations; with a completed iteration of the same title "Sprint 1", the
active one (id i1) wins; an unknown title fails. -/
theorem iteration_concat_dispatch_witness :
    (mkProjectField ⟨"f1", "Sprint", "ITERATION", [],
        some ⟨[⟨"i1", "Sprint 1"⟩], [⟨"i2", "Sprint 1"⟩]⟩⟩).iterations
      = [⟨"i1", "Sprint 1"⟩, ⟨"i2", "Sprint 1"⟩]
    ∧ update_field_value
        (get_project_fields [⟨"f1", "Sprint", "ITERATION", [],
          some ⟨[⟨"i1", "Sprint 1"⟩], [⟨"i2", "Sprint 1"⟩]⟩⟩])
        "Sprint" "Sprint 1" = .ok ⟨"f1", .iterationId "i1"⟩
    ∧ update_field_value
        (get_project_fields [⟨"f1", "Sprint", "ITERATION", [],
          some ⟨[⟨"i1", "Sprint 1"⟩], [⟨"i2", "Sprint 1"⟩]⟩⟩])
        "Sprint" "Sprint 9" = .error (.iterationNotFound "Sprint 9" "Sprint") :=
  ⟨(iteration_concat_dispatch [⟨"f1", "Sprint", "ITERATION", [],
        some ⟨[⟨"i1", "Sprint 1"⟩], [⟨"i2", "Sprint 1"⟩]⟩⟩] "Sprint" "Sprint 1"
      ⟨"f1", "Sprint", "ITERATION", [], some ⟨[⟨"i1", "Sprint 1"⟩], [⟨"i2", "Sprint 1"⟩]⟩⟩
      [⟨"i1", "Sprint 1"⟩] [⟨"i2", "Sprint 1"⟩] (by decide) rfl rfl).1,
   (iteration_concat_dispatch [⟨"f1", "Sprint", "ITERATION", [],
        some ⟨[⟨"i1", "Sprint 1"⟩], [⟨"i2", "Sprint 1"⟩]⟩⟩] "Sprint" "Sprint 1"
      ⟨"f1", "Sprint", "ITERATION", [], some ⟨[⟨"i1", "Sprint 1"⟩], [⟨"i2", "Sprint 1"⟩]⟩⟩
      [⟨"i1", "Sprint 1"⟩] [⟨"i2", "Sprint 1"⟩] (by decide) rfl rfl).2.2.2.1
      ⟨"i1", "Sprint 1"⟩ (by decide),
   (iteration_concat_dispatch [⟨"f1", "Sprint", "ITERATION", [],
        some ⟨[⟨"i1", "Sprint 1"⟩], [⟨"i2", "Sprint 1"⟩]⟩⟩] "Sprint" "Sprint 9"
      ⟨"f1", "Sprint", "ITERATION", [], some ⟨[⟨"i1", "Sprint 1"⟩], [⟨"i2", "Sprint 1"⟩]⟩⟩
      [⟨"i1", "Sprint 1"⟩] [⟨"i2", "Sprint 1"⟩] (by decide) rfl rfl).2.2.2.2 (by decide)⟩

/-- Running the counting loop from an arbitrary accumulator adds the counts
of the remaining rows componentwise. -/
theorem bulk_update_loop_acc (fields : List ProjectField) (dry_run : Bool)
    (rows : List (CsvRow × Bool)) : ∀ acc : ℕ × ℕ,
    bulk_update_loop fields dry_run acc rows
      = (acc.1 + (bulk_update fields dry_run rows).1,
         acc.2 + (bulk_update fields dry_run rows).2) := by
  induction rows with
  | nil =>
    intro acc
    simp [bulk_update, bulk_update_loop]
  | cons hd tl ih =>
    intro acc
    obtain ⟨row, netOk⟩ := hd
    cases hc : countsAsUpdated (processRow fields dry_run netOk row) with
    | true =>
      simp only [bulk_update, bulk_update_loop, hc, if_true]
      rw [ih, ih]
      simp only [Prod.mk.injEq]
      omega
    | false =>
      simp only [bulk_update, bulk_update_loop, hc, Bool.false_eq_true, if_false]
      rw [ih, ih]
      simp only [Prod.mk.injEq]
      omega

/-- If the dispatcher succeeds with a text payload, the carried text is the
raw value handed to it (only the TEXT branch produces a text payload, and it
copies the value unchanged). -/
theorem update_ok_text_inv (fields : List ProjectField) (field_name value : String)
    (p : MutationPayload) (s : String)
    (h : update_field_value fields field_name value = .ok p)
    (hs : p.value = .text s) : s = value := by
  unfold update_field_value at h
  repeat' split at h
  all_goals first
    | (simp at h; done)
    | (injection h with h2; subst h2; simp_all)

/-- C7: the bulk driver processes rows independently in order — the batch
result on a row followed by the remaining rows is the remaining rows' result
with exactly that row's own outcome added to the matching counter (so a
failed row never aborts the batch) — and the final updated and failed counts
always total the number of rows. -/
theorem bulk_rows_independent :
    (∀ (fields : List ProjectField) (dry_run netOk : Bool) (row : CsvRow)
        (rest : List (CsvRow × Bool)),
      bulk_update fields dry_run ((row, netOk) :: rest)
        = (if countsAsUpdated (processRow fields dry_run netOk row)
           then ((bulk_update fields dry_run rest).1 + 1,
                 (bulk_update fields dry_run rest).2)
           else ((bulk_update fields dry_run rest).1,
                 (bulk_update fields dry_run rest).2 + 1)))
    ∧ (∀ (fields : List ProjectField) (dry_run : Bool) (rows : List (CsvRow × Bool)),
        (bulk_update fields dry_run rows).1 + (bulk_update fields dry_run rows).2
          = rows.length) := by
  have hcons : ∀ (fields : List ProjectField) (dry_run netOk : Bool) (row : CsvRow)
      (rest : List (CsvRow × Bool)),
      bulk_update fields dry_run ((row, netOk) :: rest)
        = (if countsAsUpdated (processRow fields dry_run netOk row)
           then ((bulk_update fields dry_run rest).1 + 1,
                 (bulk_update fields dry_run rest).2)
           else ((bulk_update fields dry_run rest).1,
                 (bulk_update fields dry_run rest).2 + 1)) := by
    intro fields dry_run netOk row rest
    cases hc : countsAsUpdated (processRow fields dry_run netOk row) with
    | true =>
      simp only [bulk_update, bulk_update_loop, hc, if_true]
      rw [bulk_update_loop_acc]
      simp only [bulk_update, Prod.mk.injEq]
      omega
    | false =>
      simp only [bulk_update, bulk_update_loop, hc, Bool.false_eq_true, if_false]
      rw [bulk_update_loop_acc]
      simp only [bulk_update, Prod.mk.injEq]
      omega
  refine ⟨hcons, ?_⟩
  intro fields dry_run rows
  induction rows with
  | nil => simp [bulk_update, bulk_update_loop]
  | cons hd tl ih =>
    obtain ⟨row, netOk⟩ := hd
    rw [hcons fields dry_run netOk row tl]
    cases hc : countsAsUpdated (processRow fields dry_run netOk row) with
    | true =>
      simp only [if_true, List.length_cons]
      omega
    | false =>
      simp only [Bool.false_eq_true, if_false, List.length_cons]
      omega

/-- C8: a dry-run request issues no network call and invokes neither the
dispatcher nor the query executor — its result is the same for every catalog
and every network oracle — yet reports itself as a would-be update: the
single-item path reports the dry run, and a bulk dry-run row with all three
stripped cells non-empty is counted in the updated tally regardless of
whether the field exists or the value is valid. -/
theorem dry_run_no_dispatch :
    (∀ (fields : List ProjectField) (netOk : Bool) (item_id field_name value : String),
        set_field fields netOk item_id field_name value true
          = .dryRunReport item_id field_name value)
    ∧ (∀ (fields : List ProjectField) (netOk : Bool) (row : CsvRow),
        pyStrip row.item_id ≠ "" → pyStrip row.field_name ≠ "" → pyStrip row.value ≠ "" →
        processRow fields true netOk row = .dryRunWouldUpdate
        ∧ countsAsUpdated .dryRunWouldUpdate = true) := by
  constructor
  · intro fields netOk item_id field_name value
    rfl
  · intro fields netOk row h1 h2 h3
    refine ⟨?_, rfl⟩
    simp only [processRow]
    rw [if_neg (by simp [h1, h2, h3]), if_pos trivial]

/-- C8 witness: dry-run outcomes on an empty catalog (the field cannot
exist) and a value that would fail validation, independent of the oracle. -/
theorem dry_run_no_dispatch_witness :
    set_field [] false "IT1" "Nope" "bad" true = .dryRunReport "IT1" "Nope" "bad"
    ∧ processRow [] true false ⟨" IT1 ", "Nope", "bad value"⟩ = .dryRunWouldUpdate :=
  ⟨dry_run_no_dispatch.1 [] false "IT1" "Nope" "bad",
   (dry_run_no_dispatch.2 [] false ⟨" IT1 ", "Nope", "bad value"⟩
      (by decide) (by decide) (by decide)).1⟩

/-- C10: the bulk driver strips all three cells before any check or
dispatch; a row with any stripped cell empty is reported as missing required
fields, counted as failed, and never reaches the dispatcher; any dispatched
row was dispatched with its stripped, non-empty value — so no bulk row can
set a TEXT field to the empty string. -/
theorem bulk_strip_and_gate :
    ∀ (fields : List ProjectField) (dry_run netOk : Bool) (row : CsvRow),
      ((pyStrip row.item_id = "" ∨ pyStrip row.field_name = "" ∨ pyStrip row.value = "") →
          processRow fields dry_run netOk row = .missingFields
          ∧ countsAsUpdated .missingFields = false)
      ∧ (∀ p, processRow fields dry_run netOk row = .updated p →
          update_field_value fields (pyStrip row.field_name) (pyStrip row.value) = .ok p
          ∧ pyStrip row.value ≠ "")
      ∧ (∀ p s, processRow fields dry_run netOk row = .updated p →
          p.value = .text s → s ≠ "") := by
  intro fields dry_run netOk row
  have key : ∀ p, processRow fields dry_run netOk row = .updated p →
      update_field_value fields (pyStrip row.field_name) (pyStrip row.value) = .ok p
      ∧ pyStrip row.value ≠ "" := by
    intro p hp
    by_cases hempty : pyStrip row.item_id = "" ∨ pyStrip row.field_name = ""
        ∨ pyStrip row.value = ""
    · simp only [processRow] at hp
      rw [if_pos hempty] at hp
      simp at hp
    · push_neg at hempty
      obtain ⟨h1, h2, h3⟩ := hempty
      simp only [processRow] at hp
      rw [if_neg (by simp [h1, h2, h3])] at hp
      cases dry_run with
      | true => simp at hp
      | false =>
        simp only [Bool.false_eq_true, if_false] at hp
        cases hu : update_field_value fields (pyStrip row.field_name) (pyStrip row.value) with
        | error e =>
          rw [hu] at hp
          simp at hp
        | ok p2 =>
          rw [hu] at hp
          cases netOk with
          | false => simp at hp
          | true =>
            simp at hp
            exact ⟨by rw [hp], h3⟩
  refine ⟨?_, key, ?_⟩
  · intro h
    refine ⟨?_, rfl⟩
    simp only [processRow]
    rw [if_pos h]
  · intro p s hp hs
    obtain ⟨hu, hv⟩ := key p hp
    have heq := update_ok_text_inv fields (pyStrip row.field_name) (pyStrip row.value) p s hu hs
    rw [heq]
    exact hv

/-- C10 witness: a whitespace-only value cell is stripped to empty and the
row is reported as missing required fields without reaching the dispatcher. -/
theorem bulk_strip_and_gate_witness :
    processRow [⟨"f1", "Notes", "TEXT", [], []⟩] false true ⟨"IT1", "Notes", "   "⟩
      = .missingFields :=
  ((bulk_strip_and_gate [⟨"f1", "Notes", "TEXT", [], []⟩] false true
      ⟨"IT1", "Notes", "   "⟩).1 (Or.inr (Or.inr (by decide)))).1

end GhProjects
